import Mathlib

/-!
Shallow embedding of the `doa` container-invocation builder
(`src/docker/mod.rs`) and its interpolation engine, with theorems
checking the natural-language specification against it.

Conventions of the embedding:
* Rust `String`/`&str` become Lean `String`; a `PathBuf` rendered with
  `display()` is modelled as the rendered `String`.
* The process environment is an explicit parameter
  `env : String → Option String`.
* The external command runner used for command substitutions is a
  parameter `sf : String → Except String String` giving the captured
  standard output of the command (UTF-8 decoded), or a failure cause
  (launch failure or non-UTF-8 output).
* The external process launcher is a parameter
  `launcher : String → List String → Except String ChildOutput`.
* A Rust `HashMap` is modelled as an association list recording the
  iteration order of one call.
* Fallible code returns `Except`; a Rust `.expect(msg)` aborts with a
  distinguished `Halt.panicked msg` outcome, as opposed to an error
  returned with `?`.
-/

namespace Doa

/-- Errors of the interpolation engine (spec §7): an unterminated
substitution marker, or a command-runner failure wrapping its cause. -/
inductive InterpErr where
  | unterminatedSubstitution : InterpErr
  | substitutionExecution (cause : String) : InterpErr
deriving DecidableEq, Repr

/-- Name-start character of a bare `$NAME` variable reference:
a letter or underscore. -/
def nameStart (c : Char) : Bool := c.isAlpha || c = '_'

/-- Name character of a bare `$NAME` variable reference:
a letter, digit or underscore. -/
def nameChar (c : Char) : Bool := c.isAlphanum || c = '_'

namespace fmt

/-- Modelled from the spec: the repository's `fmt` module (declared by
`mod fmt;` in `src/docker/mod.rs`) is not among the provided sources, so
its scanner is modelled from spec §4.1.  Single left-to-right scan of the
character list: `` ` ``/`$(` open a command substitution running to the
matching `` ` ``/`)`; `${` opens a braced variable name running to `}`;
`$` followed by a name-start character consumes a maximal run of name
characters as a bare variable name; every other character is copied
verbatim.  A missing closer fails with `UnterminatedSubstitution`; a
runner failure fails with `SubstitutionExecutionError`.  Unresolved
variable names expand to the empty string.  Returns the expanded
characters together with the list of commands handed to the runner, in
order. -/
def scan (env : String → Option String) (runner : String → Except String String) :
    List Char → Except InterpErr (List Char × List String)
  | [] => .ok ([], [])
  | '`' :: rest =>
      if (rest.dropWhile (· ≠ '`')).isEmpty then
        .error .unterminatedSubstitution
      else
        match runner (String.mk (rest.takeWhile (· ≠ '`'))) with
        | .error e => .error (.substitutionExecution e)
        | .ok out =>
            match scan env runner (rest.dropWhile (· ≠ '`')).tail with
            | .error e => .error e
            | .ok (tail, log) =>
                .ok (out.data ++ tail, String.mk (rest.takeWhile (· ≠ '`')) :: log)
  | '$' :: rest =>
      match rest with
      | '(' :: rest2 =>
          if (rest2.dropWhile (· ≠ ')')).isEmpty then
            .error .unterminatedSubstitution
          else
            match runner (String.mk (rest2.takeWhile (· ≠ ')'))) with
            | .error e => .error (.substitutionExecution e)
            | .ok out =>
                match scan env runner (rest2.dropWhile (· ≠ ')')).tail with
                | .error e => .error e
                | .ok (tail, log) =>
                    .ok (out.data ++ tail,
                      String.mk (rest2.takeWhile (· ≠ ')')) :: log)
      | '{' :: rest2 =>
          if (rest2.dropWhile (· ≠ '}')).isEmpty then
            .error .unterminatedSubstitution
          else
            match scan env runner (rest2.dropWhile (· ≠ '}')).tail with
            | .error e => .error e
            | .ok (tail, log) =>
                .ok (((env (String.mk (rest2.takeWhile (· ≠ '}')))).getD
                  "").data ++ tail, log)
      | c2 :: rest2 =>
          if nameStart c2 then
            match scan env runner (rest2.dropWhile nameChar) with
            | .error e => .error e
            | .ok (tail, log) =>
                .ok (((env (String.mk
                  (c2 :: rest2.takeWhile nameChar))).getD "").data ++ tail,
                  log)
          else
            match scan env runner (c2 :: rest2) with
            | .error e => .error e
            | .ok (tail, log) => .ok ('$' :: tail, log)
      | [] => .ok (['$'], [])
  | c :: rest =>
      match scan env runner rest with
      | .error e => .error e
      | .ok (tail, log) => .ok (c :: tail, log)
termination_by cs => cs.length
decreasing_by
  all_goals simp only [List.length_cons]
  · have h1 := (rest.dropWhile_sublist (fun x => decide (x ≠ '`'))).length_le
    have h2 := List.length_tail (rest.dropWhile (fun x => decide (x ≠ '`')))
    omega
  · have h1 := (rest2.dropWhile_sublist (fun x => decide (x ≠ ')'))).length_le
    have h2 := List.length_tail (rest2.dropWhile (fun x => decide (x ≠ ')')))
    omega
  · have h1 := (rest2.dropWhile_sublist (fun x => decide (x ≠ '}'))).length_le
    have h2 := List.length_tail (rest2.dropWhile (fun x => decide (x ≠ '}')))
    omega
  · have h1 := (rest2.dropWhile_sublist nameChar).length_le
    omega
  · omega
  · omega

/-- Modelled from the spec: `fmt::shell_interpolate(raw, runner)` — the
missing `fmt` module's entry point — expands `raw` and reports the
commands it handed to the runner. -/
def shellInterpolate (env : String → Option String)
    (runner : String → Except String String) (raw : String) :
    Except InterpErr (String × List String) :=
  (scan env runner raw.data).map fun p => (String.mk p.1, p.2)

end fmt

/-- Rust's `char::is_whitespace`: the Unicode `White_Space` property.
Embeds the character class used by `str::trim_end` in
`src/docker/mod.rs`. -/
def rustIsWhitespace (c : Char) : Bool :=
  (0x09 ≤ c.val && c.val ≤ 0x0D) || c.val = 0x20 || c.val = 0x85 ||
  c.val = 0xA0 || c.val = 0x1680 || (0x2000 ≤ c.val && c.val ≤ 0x200A) ||
  c.val = 0x2028 || c.val = 0x2029 || c.val = 0x202F || c.val = 0x205F ||
  c.val = 0x3000

/-- Rust's `str::trim_end`: removes the maximal run of trailing Unicode
whitespace characters. -/
def rustTrimEnd (s : String) : String :=
  String.mk (s.data.reverse.dropWhile rustIsWhitespace).reverse

/-- A line-terminator character, `\n` or `\r`. -/
def isLineTerminator (c : Char) : Bool := c = '\n' || c = '\r'

/-- Stated from the spec's words for comparison with the source's
`rustTrimEnd`: "trims exactly the trailing line terminator(s)", i.e.
removes only the maximal run of trailing `\n`/`\r` characters and
nothing else. -/
def specTrimLineTerminators (s : String) : String :=
  String.mk (s.data.reverse.dropWhile isLineTerminator).reverse

/-- Embeds `shell_interpolate` of `src/docker/mod.rs`: expands `raw`
with a command runner that executes the command via the host shell,
captures its standard output (`sf cmd` models the captured, UTF-8
decoded bytes; its `.error` covers launch and decode failures) and
applies `trim_end` to it.  The second component lists the commands run,
in order. -/
def shell_interpolate (env : String → Option String)
    (sf : String → Except String String) (raw : String) :
    Except InterpErr (String × List String) :=
  fmt.shellInterpolate env (fun cmd => (sf cmd).map rustTrimEnd) raw

/-- `shell_interpolate`, keeping only the expanded string. -/
def shellInterpolateStr (env : String → Option String)
    (sf : String → Except String String) (raw : String) :
    Except InterpErr String :=
  (shell_interpolate env sf raw).map Prod.fst

/-- Embeds the `DockerRun` struct of `src/docker/mod.rs`.  The
`envs` `HashMap` is modelled as an association list recording the
iteration order of one call; the `env_file` `PathBuf` is modelled as the
string its `display()` renders to. -/
structure DockerRun where
  image : String
  help : Option String
  interactive : Option Bool
  tty : Option Bool
  command : Option (List String)
  entrypoint : Option String
  envs : Option (List (String × String))
  env_file : Option String
  network : Option String
  ports : Option (List String)
  volumes : Option (List String)
  user : Option String
  extra_flags : Option (List String)
deriving Repr

/-- How flag assembly aborts: a Rust `.expect(msg)` panics with `msg`,
while the `?` on the image interpolation returns the error to the
caller. -/
inductive Halt where
  | panicked (msg : String) : Halt
  | errored (e : InterpErr) : Halt
deriving DecidableEq, Repr

/-- Embeds `shell_interpolate(x).expect(msg)` as used for every field of
`DockerRun::run` except `image`: an interpolation failure panics with
`msg`. -/
def expectInterp (env : String → Option String)
    (sf : String → Except String String) (msg : String) (raw : String) :
    Except Halt String :=
  match shellInterpolateStr env sf raw with
  | .ok s => .ok s
  | .error _ => .error (.panicked msg)

/-- Embeds `shell_interpolate(&self.image)?`: an interpolation failure
is returned as an error. -/
def tryInterp (env : String → Option String)
    (sf : String → Except String String) (raw : String) :
    Except Halt String :=
  match shellInterpolateStr env sf raw with
  | .ok s => .ok s
  | .error e => .error (.errored e)

/-- The flag list of one optional string field of the `RunSpec`
(`opt.as_ref().map_or(vec![], ...)` in the source): an absent field
contributes nothing; a present value is preprocessed by `prep` (identity
everywhere except the network field, which prepends `--network=` before
interpolation), expanded with `.expect(msg)` panic semantics and
rendered to its tokens by `render`. -/
def optionFlags (env : String → Option String)
    (sf : String → Except String String) (msg : String)
    (prep : String → String) (render : String → List String) :
    Option String → Except Halt (List String)
  | none => pure []
  | some v => (expectInterp env sf msg (prep v)).map render

/-- Embeds the flag-assembly part of `DockerRun::run` (everything before
`Command::new(docker_cmd)`), in the source's evaluation order: command,
entrypoint, envs, env-file, network, ports, volumes, user, extra flags,
image.  The panic messages, including the source's reuse of
"Invalid env for env-file" on the network flag, are kept verbatim. -/
def DockerRun.buildArgs (self : DockerRun) (env : String → Option String)
    (sf : String → Except String String) : Except Halt (List String) := do
  let command_flags ←
    (self.command.getD []).mapM (expectInterp env sf "Invalid env for cmds")
  let entrypoint_flag ←
    optionFlags env sf "Invalid env for entrypoint" id
      (fun s => ["--entrypoint", s]) self.entrypoint
  let envs_flags ←
    (self.envs.getD []).mapM fun p =>
      (expectInterp env sf "Invalid env for envs" (p.1 ++ "=" ++ p.2)).map
        (fun s => ["-e", s])
  let env_file_flags ←
    optionFlags env sf "Invalid env for env-file" id
      (fun s => ["--env-file", s]) self.env_file
  let network_flags ←
    optionFlags env sf "Invalid env for env-file"
      (fun network => "--network=" ++ network) (fun s => [s]) self.network
  let ports_flags ←
    (self.ports.getD []).mapM fun port =>
      (expectInterp env sf "Invalid env for ports" port).map
        (fun s => ["-p", s])
  let volumes_flags ←
    (self.volumes.getD []).mapM fun volume =>
      (expectInterp env sf "Invalid env for volumes" volume).map
        (fun s => ["-v", s])
  let user_flags ←
    optionFlags env sf "Invalid env for user" id (fun s => ["-u", s])
      self.user
  let extra_flags ←
    (self.extra_flags.getD []).mapM
      (expectInterp env sf "Invalid env for extra flags")
  let image ← tryInterp env sf self.image
  pure (["run", "--rm"] ++ entrypoint_flag ++ envs_flags.flatten ++
    env_file_flags ++ network_flags ++ ports_flags.flatten ++
    volumes_flags.flatten ++ user_flags ++ extra_flags ++ [image] ++
    command_flags)

/-- The captured result of the launched child process. -/
structure ChildOutput where
  stdout : String
  stderr : String
  exitCode : Int
deriving DecidableEq, Repr

/-- Builder-level failures surfaced by `DockerRun::run` through `?`:
the image interpolation error, or a spawn failure of the tool process
(`LaunchError`). -/
inductive RunError where
  | interp (e : InterpErr) : RunError
  | launch (cause : String) : RunError
deriving DecidableEq, Repr

/-- The observable outcome of `DockerRun::run`: normal return carrying
the bytes copied to the caller's stdout and stderr, an error returned to
the caller, or a panic from one of the `.expect` calls. -/
inductive RunOutcome where
  | ok (stdoutWritten stderrWritten : String) : RunOutcome
  | error (e : RunError) : RunOutcome
  | panicked (msg : String) : RunOutcome
deriving DecidableEq, Repr

/-- `RunOutcome.ok` as a Boolean. -/
def RunOutcome.isOk : RunOutcome → Bool
  | .ok _ _ => true
  | _ => false

/-- The build aborted before launch: a panic or an interpolation error
(never a launch error or normal return). -/
def RunOutcome.abortedBeforeLaunch : RunOutcome → Bool
  | .panicked _ => true
  | .error (.interp _) => true
  | _ => false

/-- Embeds `DockerRun::run`.  `launcher tool args` models
`Command::new(docker_cmd).args(args).output()`: the spawned child's
captured output, or a spawn failure.  The second component of the result
records every invocation handed to the process launcher.  The `_kv`
parameter mirrors the source's unused `_kv: &HashMap<String, String>`
argument. -/
def DockerRun.run (self : DockerRun) (docker_cmd : String)
    (env : String → Option String) (sf : String → Except String String)
    (launcher : String → List String → Except String ChildOutput)
    ( _kv : List (String × String)) : RunOutcome × List (List String) :=
  match self.buildArgs env sf with
  | .error (.panicked msg) => (.panicked msg, [])
  | .error (.errored e) => (.error (.interp e), [])
  | .ok args =>
      match launcher docker_cmd args with
      | .error cause => (.error (.launch cause), [args])
      | .ok out => (.ok out.stdout out.stderr, [args])

/-- `run` returned an error (through `?`) to the caller. -/
def RunOutcome.isErrorReturn : RunOutcome → Bool
  | .error _ => true
  | _ => false

/-- The interpolation of `raw` fails. -/
def interpFails (env : String → Option String)
    (sf : String → Except String String) (raw : String) : Bool :=
  match shellInterpolateStr env sf raw with
  | .ok _ => false
  | .error _ => true

/-- Some string of the `RunSpec` that `DockerRun::run` interpolates
(steps 2–11: entrypoint, envs, env-file, network, ports, volumes, user,
extra flags, image, command) fails to interpolate.  Each string is
exactly the one the source hands to `shell_interpolate`. -/
def DockerRun.someFieldFails (self : DockerRun)
    (env : String → Option String) (sf : String → Except String String) :
    Bool :=
  self.entrypoint.any (interpFails env sf) ||
  (self.envs.getD []).any (fun p => interpFails env sf (p.1 ++ "=" ++ p.2)) ||
  self.env_file.any (interpFails env sf) ||
  self.network.any (fun n => interpFails env sf ("--network=" ++ n)) ||
  (self.ports.getD []).any (interpFails env sf) ||
  (self.volumes.getD []).any (interpFails env sf) ||
  self.user.any (interpFails env sf) ||
  (self.extra_flags.getD []).any (interpFails env sf) ||
  interpFails env sf self.image ||
  (self.command.getD []).any (interpFails env sf)

/-- The successfully expanded form of `raw` (meaningful when
interpolation succeeds). -/
def tok (env : String → Option String)
    (sf : String → Except String String) (raw : String) : String :=
  ((shellInterpolateStr env sf raw).toOption).getD ""

/-- The tokens contributed by the `entrypoint` field. -/
def DockerRun.entrypointGroup (self : DockerRun)
    (env : String → Option String) (sf : String → Except String String) :
    List String :=
  match self.entrypoint with
  | none => []
  | some e => ["--entrypoint", tok env sf e]

/-- The tokens contributed by the `envs` field: `-e` then the pair
joined as `k=v` and expanded as one string. -/
def DockerRun.envsGroup (self : DockerRun)
    (env : String → Option String) (sf : String → Except String String) :
    List String :=
  ((self.envs.getD []).map
    (fun p => ["-e", tok env sf (p.1 ++ "=" ++ p.2)])).flatten

/-- The tokens contributed by the `env_file` field. -/
def DockerRun.envFileGroup (self : DockerRun)
    (env : String → Option String) (sf : String → Except String String) :
    List String :=
  match self.env_file with
  | none => []
  | some f => ["--env-file", tok env sf f]

/-- The token contributed by the `network` field: a single combined
`--network=<value>` token. -/
def DockerRun.networkGroup (self : DockerRun)
    (env : String → Option String) (sf : String → Except String String) :
    List String :=
  match self.network with
  | none => []
  | some n => [tok env sf ("--network=" ++ n)]

/-- The tokens contributed by the `ports` field, in list order. -/
def DockerRun.portsGroup (self : DockerRun)
    (env : String → Option String) (sf : String → Except String String) :
    List String :=
  ((self.ports.getD []).map (fun port => ["-p", tok env sf port])).flatten

/-- The tokens contributed by the `volumes` field, in list order. -/
def DockerRun.volumesGroup (self : DockerRun)
    (env : String → Option String) (sf : String → Except String String) :
    List String :=
  ((self.volumes.getD []).map (fun v => ["-v", tok env sf v])).flatten

/-- The tokens contributed by the `user` field. -/
def DockerRun.userGroup (self : DockerRun)
    (env : String → Option String) (sf : String → Except String String) :
    List String :=
  match self.user with
  | none => []
  | some u => ["-u", tok env sf u]

/-- The tokens contributed by the `extra_flags` field: each entry
expanded, one token each, in list order. -/
def DockerRun.extraFlagsGroup (self : DockerRun)
    (env : String → Option String) (sf : String → Except String String) :
    List String :=
  (self.extra_flags.getD []).map (tok env sf)

/-- The token contributed by the mandatory `image` field. -/
def DockerRun.imageGroup (self : DockerRun)
    (env : String → Option String) (sf : String → Except String String) :
    List String :=
  [tok env sf self.image]

/-- The tokens contributed by the `command` field, appended last. -/
def DockerRun.commandGroup (self : DockerRun)
    (env : String → Option String) (sf : String → Except String String) :
    List String :=
  (self.command.getD []).map (tok env sf)

/-- The full token sequence as the spec presents it: the fixed
`run --rm` prefix, then the field groups in the documented order. -/
def DockerRun.groups (self : DockerRun) (env : String → Option String)
    (sf : String → Except String String) : List String :=
  ["run", "--rm"] ++ self.entrypointGroup env sf ++ self.envsGroup env sf ++
    self.envFileGroup env sf ++ self.networkGroup env sf ++
    self.portsGroup env sf ++ self.volumesGroup env sf ++
    self.userGroup env sf ++ self.extraFlagsGroup env sf ++
    self.imageGroup env sf ++ self.commandGroup env sf

/-- A `RunSpec` with only the mandatory `image` field populated. -/
def imageOnly (image : String) : DockerRun where
  image := image
  help := none
  interactive := none
  tty := none
  command := none
  entrypoint := none
  envs := none
  env_file := none
  network := none
  ports := none
  volumes := none
  user := none
  extra_flags := none

/-- An environment with no variables set. -/
def emptyEnv : String → Option String := fun _ => none

/-- A command runner whose every command captures empty output. -/
def quietRunner : String → Except String String := fun _ => .ok ""

/-- A process launcher stub that always reports a child which wrote
nothing and exited 0. -/
def stubLauncher : String → List String → Except String ChildOutput :=
  fun _ _ => .ok ⟨"", "", 0⟩

/-- An environment with only `HOME` set, to `/home/u`. -/
def homeEnv : String → Option String :=
  fun n => if n = "HOME" then some "/home/u" else none

/-- A `RunSpec` whose entrypoint carries an unterminated `$\x7b` marker,
so its interpolation fails. -/
def badEntrypointSpec : DockerRun :=
  { imageOnly "alpine" with entrypoint := some (String.mk ['$', '{', 'X']) }

/-! ## Theorems -/

namespace fmt

/-- Unfolding `scan` on the empty input. -/
theorem scan_nil (env : String → Option String)
    (runner : String → Except String String) :
    scan env runner [] = .ok ([], []) := by
  simp [scan]

/-- Unfolding `scan` on a character that opens no substitution marker:
it is copied verbatim. -/
theorem scan_cons_plain (env : String → Option String)
    (runner : String → Except String String) (c : Char) (rest : List Char)
    (h1 : c ≠ '`') (h2 : c ≠ '$') :
    scan env runner (c :: rest) =
      match scan env runner rest with
      | .error e => .error e
      | .ok (tail, log) => .ok (c :: tail, log) := by
  rw [scan.eq_def]
  split <;> simp_all

/-- Unfolding `scan` on a backtick with no closing backtick ahead. -/
theorem scan_backtick_open (env : String → Option String)
    (runner : String → Except String String) (rest : List Char)
    (h : rest.dropWhile (· ≠ '`') = []) :
    scan env runner ('`' :: rest) = .error .unterminatedSubstitution := by
  have hcond : (rest.dropWhile (· ≠ '`')).isEmpty = true := by rw [h]; rfl
  rw [scan.eq_def]
  simp only [hcond]
  simp

/-- Unfolding `scan` on a backtick whose closing backtick exists. -/
theorem scan_backtick_closed (env : String → Option String)
    (runner : String → Except String String) (rest : List Char)
    (h : (rest.dropWhile (· ≠ '`')).isEmpty = false) :
    scan env runner ('`' :: rest) =
      match runner (String.mk (rest.takeWhile (· ≠ '`'))) with
      | .error e => .error (.substitutionExecution e)
      | .ok out =>
          match scan env runner (rest.dropWhile (· ≠ '`')).tail with
          | .error e => .error e
          | .ok (tail, log) =>
              .ok (out.data ++ tail, String.mk (rest.takeWhile (· ≠ '`')) :: log) := by
  rw [scan.eq_def]
  simp only [h]
  rfl

/-- Unfolding `scan` on `$(` with no closing parenthesis ahead. -/
theorem scan_paren_open (env : String → Option String)
    (runner : String → Except String String) (rest2 : List Char)
    (h : rest2.dropWhile (· ≠ ')') = []) :
    scan env runner ('$' :: '(' :: rest2) = .error .unterminatedSubstitution := by
  have hcond : (rest2.dropWhile (· ≠ ')')).isEmpty = true := by rw [h]; rfl
  rw [scan.eq_def]
  simp only [hcond]
  simp

/-- Unfolding `scan` on `$(` whose closing parenthesis exists. -/
theorem scan_paren_closed (env : String → Option String)
    (runner : String → Except String String) (rest2 : List Char)
    (h : (rest2.dropWhile (· ≠ ')')).isEmpty = false) :
    scan env runner ('$' :: '(' :: rest2) =
      match runner (String.mk (rest2.takeWhile (· ≠ ')'))) with
      | .error e => .error (.substitutionExecution e)
      | .ok out =>
          match scan env runner (rest2.dropWhile (· ≠ ')')).tail with
          | .error e => .error e
          | .ok (tail, log) =>
              .ok (out.data ++ tail, String.mk (rest2.takeWhile (· ≠ ')')) :: log) := by
  rw [scan.eq_def]
  simp only [h]
  rfl

/-- Unfolding `scan` on `${` with no closing brace ahead. -/
theorem scan_brace_open (env : String → Option String)
    (runner : String → Except String String) (rest2 : List Char)
    (h : rest2.dropWhile (· ≠ '}') = []) :
    scan env runner ('$' :: '{' :: rest2) = .error .unterminatedSubstitution := by
  have hcond : (rest2.dropWhile (· ≠ '}')).isEmpty = true := by rw [h]; rfl
  rw [scan.eq_def]
  simp only [hcond]
  simp

/-- Unfolding `scan` on `${` whose closing brace exists: the enclosed
text resolves through the environment, an unset name giving `""`. -/
theorem scan_brace_closed (env : String → Option String)
    (runner : String → Except String String) (rest2 : List Char)
    (h : (rest2.dropWhile (· ≠ '}')).isEmpty = false) :
    scan env runner ('$' :: '{' :: rest2) =
      match scan env runner (rest2.dropWhile (· ≠ '}')).tail with
      | .error e => .error e
      | .ok (tail, log) =>
          .ok (((env (String.mk (rest2.takeWhile (· ≠ '}')))).getD "").data ++
            tail, log) := by
  rw [scan.eq_def]
  simp only [h]
  rfl

/-- Unfolding `scan` on `$` followed by a name-start character: the
maximal run of name characters is the variable name. -/
theorem scan_bare_name (env : String → Option String)
    (runner : String → Except String String) (c2 : Char) (rest2 : List Char)
    (hc : nameStart c2 = true) (hp : c2 ≠ '(') (hb : c2 ≠ '{') :
    scan env runner ('$' :: c2 :: rest2) =
      match scan env runner (rest2.dropWhile nameChar) with
      | .error e => .error e
      | .ok (tail, log) =>
          .ok (((env (String.mk (c2 :: rest2.takeWhile nameChar))).getD
            "").data ++ tail, log) := by
  rw [scan.eq_def]
  split
  · simp_all
  · simp_all
  · rename_i rest' heq
    injection heq with h1 h2
    subst h2
    split
    · simp_all
    · simp_all
    · rename_i c2' rest2' heq2
      injection heq2 with h3 h4
      subst h3
      subst h4
      simp only [hc]
      rfl
    · simp_all
  · rename_i hne1 hne2 heq
    injection heq with h1 h2
    exact absurd h1.symm hne2

/-- Unfolding `scan` on `$` followed by a character that opens nothing:
the `$` is copied verbatim and scanning resumes at that character. -/
theorem scan_dollar_plain (env : String → Option String)
    (runner : String → Except String String) (c2 : Char) (rest2 : List Char)
    (hc : nameStart c2 = false) (hp : c2 ≠ '(') (hb : c2 ≠ '{') :
    scan env runner ('$' :: c2 :: rest2) =
      match scan env runner (c2 :: rest2) with
      | .error e => .error e
      | .ok (tail, log) => .ok ('$' :: tail, log) := by
  rw [scan.eq_def]
  split
  · simp_all
  · simp_all
  · rename_i rest' heq
    injection heq with h1 h2
    subst h2
    split
    · simp_all
    · simp_all
    · rename_i c2' rest2' heq2
      injection heq2 with h3 h4
      subst h3
      subst h4
      simp only [hc]
      rfl
    · simp_all
  · rename_i hne1 hne2 heq
    injection heq with h1 h2
    exact absurd h1.symm hne2

/-- Unfolding `scan` on a trailing lone `$`: copied verbatim. -/
theorem scan_dollar_nil (env : String → Option String)
    (runner : String → Except String String) :
    scan env runner ['$'] = .ok (['$'], []) := by
  rw [scan.eq_def]
  simp

/-- A prefix of characters that open no substitution marker is copied
verbatim and scanning continues on the remainder. -/
theorem scan_append_plain (env : String → Option String)
    (runner : String → Except String String) (p cs : List Char)
    (h : ∀ c ∈ p, c ≠ '$' ∧ c ≠ '`') :
    scan env runner (p ++ cs) =
      match scan env runner cs with
      | .error e => .error e
      | .ok (tail, log) => .ok (p ++ tail, log) := by
  induction p with
  | nil =>
      cases hs : scan env runner cs with
      | error e => simp [hs]
      | ok pr => cases pr; simp [hs]
  | cons a p ih =>
      have ha := h a (List.mem_cons_self a p)
      have hp : ∀ c ∈ p, c ≠ '$' ∧ c ≠ '`' :=
        fun c hc => h c (List.mem_cons_of_mem a hc)
      rw [List.cons_append, scan_cons_plain env runner a (p ++ cs) ha.2 ha.1,
        ih hp]
      cases hs : scan env runner cs with
      | error e => simp
      | ok pr => cases pr; simp

/-- A string with no `$` and no backtick scans to itself, with no
command executed. -/
theorem scan_plain (env : String → Option String)
    (runner : String → Except String String) (p : List Char)
    (h : ∀ c ∈ p, c ≠ '$' ∧ c ≠ '`') :
    scan env runner p = .ok (p, []) := by
  have happ := scan_append_plain env runner p [] h
  rw [List.append_nil] at happ
  rw [happ, scan_nil]
  simp

end fmt

/-- Appending past an all-satisfying block: `takeWhile` keeps the block. -/
theorem takeWhile_append_all {α} (p : α → Bool) (l l' : List α)
    (h : ∀ c ∈ l, p c = true) :
    (l ++ l').takeWhile p = l ++ l'.takeWhile p := by
  induction l with
  | nil => simp
  | cons a l ih =>
      have ha := h a (List.mem_cons_self a l)
      simp only [List.cons_append, List.takeWhile_cons, ha]
      simp only [if_true, List.cons.injEq, true_and]
      exact ih (fun c hc => h c (List.mem_cons_of_mem a hc))

/-- Appending past an all-satisfying block: `dropWhile` skips the block. -/
theorem dropWhile_append_all {α} (p : α → Bool) (l l' : List α)
    (h : ∀ c ∈ l, p c = true) :
    (l ++ l').dropWhile p = l'.dropWhile p := by
  induction l with
  | nil => simp
  | cons a l ih =>
      have ha := h a (List.mem_cons_self a l)
      simp only [List.cons_append, List.dropWhile_cons, ha]
      exact ih (fun c hc => h c (List.mem_cons_of_mem a hc))

/-- C8: a string with no `$` and no backtick expands to itself and the
command runner is never invoked. -/
theorem claim_C8_no_marker_identity (env : String → Option String)
    (sf : String → Except String String) (s : String)
    (h : ∀ c ∈ s.data, c ≠ '$' ∧ c ≠ '`') :
    shell_interpolate env sf s = .ok (s, []) := by
  unfold shell_interpolate fmt.shellInterpolate
  rw [fmt.scan_plain _ _ s.data h]
  rfl

/-- Witness for C8 at a concrete marker-free string. -/
theorem claim_C8_witness :
    shell_interpolate emptyEnv quietRunner "no markers here" =
      .ok ("no markers here", []) :=
  claim_C8_no_marker_identity emptyEnv quietRunner "no markers here"
    (by decide)

/-- C9: the `help`, `interactive` and `tty` fields contribute nothing:
`run` behaves identically for any values of these three fields. -/
theorem claim_C9_inert_fields (self : DockerRun) (docker_cmd : String)
    (env : String → Option String) (sf : String → Except String String)
    (launcher : String → List String → Except String ChildOutput)
    (kv : List (String × String)) (h h' : Option String)
    (i i' t t' : Option Bool) :
    DockerRun.run { self with help := h, interactive := i, tty := t }
        docker_cmd env sf launcher kv =
      DockerRun.run { self with help := h', interactive := i', tty := t' }
        docker_cmd env sf launcher kv := rfl

/-- C10: the `_kv` map argument of `DockerRun::run` is ignored: any two
maps give identical behavior. -/
theorem claim_C10_kv_ignored (self : DockerRun) (docker_cmd : String)
    (env : String → Option String) (sf : String → Except String String)
    (launcher : String → List String → Except String ChildOutput)
    (kv1 kv2 : List (String × String)) :
    self.run docker_cmd env sf launcher kv1 =
      self.run docker_cmd env sf launcher kv2 := rfl

/-- C5: when the launcher reports a completed child, `run` copies the
child's captured stdout and stderr verbatim to the caller's streams and
returns success, whatever the exit code was. -/
theorem claim_C5_passthrough (self : DockerRun) (docker_cmd : String)
    (env : String → Option String) (sf : String → Except String String)
    (launcher : String → List String → Except String ChildOutput)
    (kv : List (String × String)) (args : List String) (out : ChildOutput)
    (hargs : self.buildArgs env sf = .ok args)
    (hlaunch : launcher docker_cmd args = .ok out) :
    self.run docker_cmd env sf launcher kv =
      (.ok out.stdout out.stderr, [args]) := by
  simp [DockerRun.run, hargs, hlaunch]

/-- A name-start character is none of the scanner's special characters. -/
theorem nameStart_ne_special {c : Char} (h : nameStart c = true) :
    c ≠ '(' ∧ c ≠ '{' ∧ c ≠ '}' ∧ c ≠ '`' ∧ c ≠ '$' := by
  refine ⟨?_, ?_, ?_, ?_, ?_⟩ <;> (rintro rfl; revert h; decide)

/-- A name character is not a closing brace. -/
theorem nameChar_ne_brace {c : Char} (h : nameChar c = true) : c ≠ '}' := by
  rintro rfl; revert h; decide

/-- C7: both `$NAME` and `${NAME}` resolve through the environment,
yielding the variable's value when set and the empty string when unset
(`Option.getD` covers both cases); neither form runs any command. -/
theorem claim_C7_variable_lookup (env : String → Option String)
    (sf : String → Except String String) (c : Char) (cs : List Char)
    (h1 : nameStart c = true) (h2 : ∀ x ∈ cs, nameChar x = true) :
    shell_interpolate env sf (String.mk ('$' :: c :: cs)) =
      .ok ((env (String.mk (c :: cs))).getD "", []) ∧
    shell_interpolate env sf (String.mk ('$' :: '{' :: ((c :: cs) ++ ['}']))) =
      .ok ((env (String.mk (c :: cs))).getD "", []) := by
  have hspec := nameStart_ne_special h1
  constructor
  · unfold shell_interpolate fmt.shellInterpolate
    rw [show (String.mk ('$' :: c :: cs)).data = '$' :: c :: cs from rfl]
    rw [fmt.scan_bare_name _ _ c cs h1 hspec.1 hspec.2.1]
    rw [List.dropWhile_eq_nil_iff.mpr h2, fmt.scan_nil,
      List.takeWhile_eq_self_iff.mpr h2]
    simp only [Except.map, List.append_nil]
  · unfold shell_interpolate fmt.shellInterpolate
    rw [show (String.mk ('$' :: '{' :: ((c :: cs) ++ ['}']))).data =
      '$' :: '{' :: ((c :: cs) ++ ['}']) from rfl]
    have hne : ∀ x ∈ c :: cs, (fun y => decide (y ≠ '}')) x = true := by
      intro x hx
      rcases List.mem_cons.mp hx with hx | hx
      · subst hx
        simp [hspec.2.2.1]
      · simp [nameChar_ne_brace (h2 x hx)]
    have hdrop : ((c :: cs) ++ ['}']).dropWhile (· ≠ '}') = ['}'] := by
      rw [dropWhile_append_all _ _ _ hne]
      rfl
    have htake : ((c :: cs) ++ ['}']).takeWhile (· ≠ '}') = c :: cs := by
      rw [takeWhile_append_all _ _ _ hne]
      simp
    rw [fmt.scan_brace_closed _ _ _ (by rw [hdrop]; rfl)]
    rw [hdrop, htake]
    rw [show (['}'] : List Char).tail = [] from rfl, fmt.scan_nil]
    simp only [Except.map, List.append_nil]

/-- Witness for C7 at `FOO`, with the variable both set and unset. -/
theorem claim_C7_witness :
    (shell_interpolate (fun n => if n = "FOO" then some "bar" else none)
        quietRunner "$FOO" = .ok ("bar", []) ∧
      shell_interpolate (fun n => if n = "FOO" then some "bar" else none)
        quietRunner "${FOO}" = .ok ("bar", [])) ∧
    (shell_interpolate emptyEnv quietRunner "$FOO" = .ok ("", []) ∧
      shell_interpolate emptyEnv quietRunner "${FOO}" = .ok ("", [])) := by
  have hset := claim_C7_variable_lookup
    (fun n => if n = "FOO" then some "bar" else none) quietRunner
    'F' ['O', 'O'] (by decide) (by decide)
  have hunset := claim_C7_variable_lookup emptyEnv quietRunner
    'F' ['O', 'O'] (by decide) (by decide)
  exact ⟨⟨hset.1, hset.2⟩, ⟨hunset.1, hunset.2⟩⟩

/-- C6: an opener (backtick, `$(` or `${`) whose closer never appears
before the end of the string makes the whole expansion fail with
`UnterminatedSubstitution`. -/
theorem claim_C6_unterminated (env : String → Option String)
    (sf : String → Except String String) (p t : List Char)
    (hp : ∀ c ∈ p, c ≠ '$' ∧ c ≠ '`') :
    ('`' ∉ t → shell_interpolate env sf (String.mk (p ++ '`' :: t)) =
      .error .unterminatedSubstitution) ∧
    (')' ∉ t → shell_interpolate env sf (String.mk (p ++ '$' :: '(' :: t)) =
      .error .unterminatedSubstitution) ∧
    ('}' ∉ t → shell_interpolate env sf (String.mk (p ++ '$' :: '{' :: t)) =
      .error .unterminatedSubstitution) := by
  refine ⟨fun hm => ?_, fun hm => ?_, fun hm => ?_⟩ <;>
    unfold shell_interpolate fmt.shellInterpolate
  · rw [show (String.mk (p ++ '`' :: t)).data = p ++ '`' :: t from rfl]
    rw [fmt.scan_append_plain _ _ p _ hp]
    rw [fmt.scan_backtick_open _ _ t (List.dropWhile_eq_nil_iff.mpr
      (fun x hx => by simp; rintro rfl; exact hm hx))]
    rfl
  · rw [show (String.mk (p ++ '$' :: '(' :: t)).data =
      p ++ '$' :: '(' :: t from rfl]
    rw [fmt.scan_append_plain _ _ p _ hp]
    rw [fmt.scan_paren_open _ _ t (List.dropWhile_eq_nil_iff.mpr
      (fun x hx => by simp; rintro rfl; exact hm hx))]
    rfl
  · rw [show (String.mk (p ++ '$' :: '{' :: t)).data =
      p ++ '$' :: '{' :: t from rfl]
    rw [fmt.scan_append_plain _ _ p _ hp]
    rw [fmt.scan_brace_open _ _ t (List.dropWhile_eq_nil_iff.mpr
      (fun x hx => by simp; rintro rfl; exact hm hx))]
    rfl

/-- Witness for C6 at the spec's two examples. -/
theorem claim_C6_witness :
    shell_interpolate emptyEnv quietRunner "$\x7bFOO" =
      .error .unterminatedSubstitution ∧
    shell_interpolate emptyEnv quietRunner "`echo hi" =
      .error .unterminatedSubstitution := by
  constructor
  · exact (claim_C6_unterminated emptyEnv quietRunner [] ['F', 'O', 'O']
      (by decide)).2.2 (by decide)
  · exact (claim_C6_unterminated emptyEnv quietRunner []
      ['e', 'c', 'h', 'o', ' ', 'h', 'i'] (by decide)).1 (by decide)

/-- Witness for C5: a child that exits 7 still yields success and its
streams are copied verbatim. -/
theorem claim_C5_witness :
    (imageOnly "alpine").run "docker" emptyEnv quietRunner
        (fun _ _ => .ok ⟨"out text", "err text", 7⟩) [] =
      (.ok "out text" "err text", [["run", "--rm", "alpine"]]) := by
  have hargs : (imageOnly "alpine").buildArgs emptyEnv quietRunner =
      .ok ["run", "--rm", "alpine"] := by
    simp [DockerRun.buildArgs, imageOnly, optionFlags, tryInterp,
      shellInterpolateStr, shell_interpolate, fmt.shellInterpolate, fmt.scan,
      Except.map, List.mapM, List.mapM.loop]
  exact claim_C5_passthrough (imageOnly "alpine") "docker" emptyEnv
    quietRunner (fun _ _ => .ok ⟨"out text", "err text", 7⟩) []
    ["run", "--rm", "alpine"] ⟨"out text", "err text", 7⟩ hargs rfl

/-- C2 (amended): the engine splices the command runner's captured
standard output after `trim_end`, i.e. with ALL trailing whitespace
removed — not only trailing line terminators. -/
theorem claim_C2_trim_amended (env : String → Option String)
    (sf : String → Except String String) (pre cmd suf : List Char)
    (out : String) (tail : List Char) (log : List String)
    (hpre : ∀ c ∈ pre, c ≠ '$' ∧ c ≠ '`') (hcmd : '`' ∉ cmd)
    (hout : sf (String.mk cmd) = .ok out)
    (hsuf : fmt.scan env (fun c => (sf c).map rustTrimEnd) suf =
      .ok (tail, log)) :
    shell_interpolate env sf (String.mk (pre ++ '`' :: (cmd ++ '`' :: suf))) =
      .ok (String.mk (pre ++ ((rustTrimEnd out).data ++ tail)),
        String.mk cmd :: log) := by
  unfold shell_interpolate fmt.shellInterpolate
  rw [show (String.mk (pre ++ '`' :: (cmd ++ '`' :: suf))).data =
    pre ++ '`' :: (cmd ++ '`' :: suf) from rfl]
  rw [fmt.scan_append_plain _ _ pre _ hpre]
  have hallcmd : ∀ x ∈ cmd, (fun y => decide (y ≠ '`')) x = true := by
    intro x hx
    simp
    rintro rfl
    exact hcmd hx
  have hdrop : (cmd ++ '`' :: suf).dropWhile (· ≠ '`') = '`' :: suf := by
    rw [dropWhile_append_all _ _ _ hallcmd]
    rfl
  have htake : (cmd ++ '`' :: suf).takeWhile (· ≠ '`') = cmd := by
    rw [takeWhile_append_all _ _ _ hallcmd]
    simp
  rw [fmt.scan_backtick_closed _ _ _ (by rw [hdrop]; rfl)]
  rw [hdrop, htake]
  rw [show ('`' :: suf).tail = suf from rfl]
  rw [hout]
  rw [show Except.map rustTrimEnd (Except.ok out : Except String String) =
    Except.ok (rustTrimEnd out) from rfl]
  rw [hsuf]
  rfl

/-- Witness for C2 (amended) at the spec's example: the captured output
of `printf ok` is spliced between the literal pieces. -/
theorem claim_C2_amended_witness :
    shell_interpolate emptyEnv
        (fun c => if c = "printf ok" then .ok "ok" else .error "unexpected")
        "prefix-`printf ok`-suffix" = .ok ("prefix-ok-suffix", ["printf ok"]) := by
  have h := claim_C2_trim_amended emptyEnv
    (fun c => if c = "printf ok" then .ok "ok" else .error "unexpected")
    "prefix-".data "printf ok".data "-suffix".data "ok" "-suffix".data []
    (by decide) (by decide) (by rfl)
    (fmt.scan_plain _ _ "-suffix".data (by decide))
  exact h

/-- Counterexample to C2 as stated: when the captured standard output
carries a trailing space, the code (via `trim_end`) removes it as well,
while trimming only the trailing line terminators would keep it. -/
theorem claim_C2_counterexample :
    shellInterpolateStr emptyEnv (fun _ => .ok "ok ") (String.mk ['`', 'c', '`']) =
      .ok "ok" ∧
    specTrimLineTerminators "ok " = "ok " ∧
    shellInterpolateStr emptyEnv (fun _ => .ok "ok ") (String.mk ['`', 'c', '`']) ≠
      .ok (specTrimLineTerminators "ok ") := by
  refine ⟨?_, by decide, ?_⟩ <;>
    simp [shellInterpolateStr, shell_interpolate, fmt.shellInterpolate,
      fmt.scan, List.dropWhile, List.takeWhile, Except.map, rustTrimEnd,
      rustIsWhitespace, emptyEnv, specTrimLineTerminators, isLineTerminator]

/-- `bind` on a successful `Except` value. -/
theorem except_bind_ok {ε α β : Type} (a : α) (f : α → Except ε β) :
    (Except.ok a : Except ε α) >>= f = f a := rfl

/-- `bind` on a failed `Except` value. -/
theorem except_bind_error {ε α β : Type} (e : ε) (f : α → Except ε β) :
    (Except.error e : Except ε α) >>= f = .error e := rfl

/-- `pure` on `Except` is `ok`. -/
theorem except_pure {ε α : Type} (a : α) :
    (pure a : Except ε α) = .ok a := rfl

/-- `Except.map` on a successful value. -/
theorem except_map_ok {ε α β : Type} (f : α → β) (a : α) :
    (Except.ok a : Except ε α).map f = .ok (f a) := rfl

/-- `Except.map` on a failed value. -/
theorem except_map_error {ε α β : Type} (f : α → β) (e : ε) :
    (Except.error e : Except ε α).map f = .error e := rfl

/-- A successful `.expect`-style interpolation yields the expanded
token and witnesses that the field's interpolation does not fail. -/
theorem expectInterp_ok {env : String → Option String}
    {sf : String → Except String String} {msg raw s : String}
    (h : expectInterp env sf msg raw = .ok s) :
    s = tok env sf raw ∧ interpFails env sf raw = false := by
  unfold expectInterp at h
  unfold tok interpFails
  cases hs : shellInterpolateStr env sf raw with
  | ok v =>
      rw [hs] at h
      injection h with h
      subst h
      simp [Except.toOption]
  | error e =>
      rw [hs] at h
      exact Except.noConfusion h

/-- A successful `?`-style interpolation (the image) likewise. -/
theorem tryInterp_ok {env : String → Option String}
    {sf : String → Except String String} {raw s : String}
    (h : tryInterp env sf raw = .ok s) :
    s = tok env sf raw ∧ interpFails env sf raw = false := by
  unfold tryInterp at h
  unfold tok interpFails
  cases hs : shellInterpolateStr env sf raw with
  | ok v =>
      rw [hs] at h
      injection h with h
      subst h
      simp [Except.toOption]
  | error e =>
      rw [hs] at h
      exact Except.noConfusion h

/-- A successful `mapM` over `Except` computes the pointwise map and
witnesses that no element satisfies the failure predicate. -/
theorem mapM_ok_facts {ε α β : Type} {f : α → Except ε β} {g : α → β}
    {q : α → Bool} (hfg : ∀ x y, f x = .ok y → y = g x ∧ q x = false) :
    ∀ {l : List α} {ys : List β}, l.mapM f = .ok ys →
      ys = l.map g ∧ l.any q = false := by
  intro l
  induction l with
  | nil =>
      intro ys h
      rw [List.mapM_nil, except_pure] at h
      injection h with h
      subst h
      exact ⟨rfl, rfl⟩
  | cons a l ih =>
      intro ys h
      rw [List.mapM_cons] at h
      cases hfa : f a with
      | error e =>
          simp only [hfa, except_bind_error] at h
          exact Except.noConfusion h
      | ok y =>
          simp only [hfa, except_bind_ok] at h
          cases hml : l.mapM f with
          | error e =>
              simp only [hml, except_bind_error] at h
              exact Except.noConfusion h
          | ok ys2 =>
              simp only [hml, except_bind_ok, except_pure] at h
              injection h with h
              subst h
              obtain ⟨hy, hq⟩ := hfg a y hfa
              obtain ⟨h1, h2⟩ := ih hml
              subst hy
              subst h1
              exact ⟨rfl, by simp [List.any_cons, hq, h2]⟩

/-- A successful `optionFlags` renders the expanded value (or nothing)
and witnesses that the field's interpolation does not fail. -/
theorem optionFlags_ok {env : String → Option String}
    {sf : String → Except String String} {msg : String}
    {prep : String → String} {render : String → List String} :
    ∀ {o : Option String} {ys : List String},
      optionFlags env sf msg prep render o = .ok ys →
        ys = (match o with
              | none => []
              | some v => render (tok env sf (prep v))) ∧
        o.any (fun v => interpFails env sf (prep v)) = false := by
  intro o ys h
  cases o with
  | none =>
      simp only [optionFlags] at h
      rw [except_pure] at h
      injection h with h
      subst h
      exact ⟨rfl, rfl⟩
  | some v =>
      simp only [optionFlags] at h
      cases he : expectInterp env sf msg (prep v) with
      | error e =>
          rw [he, except_map_error] at h
          exact Except.noConfusion h
      | ok s =>
          rw [he, except_map_ok] at h
          injection h with h
          subst h
          obtain ⟨hs, hq⟩ := expectInterp_ok he
          subst hs
          exact ⟨rfl, by simp [Option.any, hq]⟩

/-- A successful flag assembly produces exactly the documented token
groups in the documented order, and no field's interpolation fails. -/
theorem buildArgs_ok_groups (self : DockerRun) (env : String → Option String)
    (sf : String → Except String String) (args : List String)
    (h : self.buildArgs env sf = .ok args) :
    args = self.groups env sf ∧ self.someFieldFails env sf = false := by
  unfold DockerRun.buildArgs at h
  cases h1 : (self.command.getD []).mapM
      (expectInterp env sf "Invalid env for cmds") with
  | error e => simp only [h1, except_bind_error] at h; exact Except.noConfusion h
  | ok command_flags =>
  simp only [h1, except_bind_ok] at h
  cases h2 : optionFlags env sf "Invalid env for entrypoint" id
      (fun s => ["--entrypoint", s]) self.entrypoint with
  | error e => simp only [h2, except_bind_error] at h; exact Except.noConfusion h
  | ok entrypoint_flag =>
  simp only [h2, except_bind_ok] at h
  cases h3 : (self.envs.getD []).mapM (fun p =>
      (expectInterp env sf "Invalid env for envs" (p.1 ++ "=" ++ p.2)).map
        (fun s => ["-e", s])) with
  | error e => simp only [h3, except_bind_error] at h; exact Except.noConfusion h
  | ok envs_flags =>
  simp only [h3, except_bind_ok] at h
  cases h4 : optionFlags env sf "Invalid env for env-file" id
      (fun s => ["--env-file", s]) self.env_file with
  | error e => simp only [h4, except_bind_error] at h; exact Except.noConfusion h
  | ok env_file_flags =>
  simp only [h4, except_bind_ok] at h
  cases h5 : optionFlags env sf "Invalid env for env-file"
      (fun network => "--network=" ++ network) (fun s => [s])
      self.network with
  | error e => simp only [h5, except_bind_error] at h; exact Except.noConfusion h
  | ok network_flags =>
  simp only [h5, except_bind_ok] at h
  cases h6 : (self.ports.getD []).mapM (fun port =>
      (expectInterp env sf "Invalid env for ports" port).map
        (fun s => ["-p", s])) with
  | error e => simp only [h6, except_bind_error] at h; exact Except.noConfusion h
  | ok ports_flags =>
  simp only [h6, except_bind_ok] at h
  cases h7 : (self.volumes.getD []).mapM (fun volume =>
      (expectInterp env sf "Invalid env for volumes" volume).map
        (fun s => ["-v", s])) with
  | error e => simp only [h7, except_bind_error] at h; exact Except.noConfusion h
  | ok volumes_flags =>
  simp only [h7, except_bind_ok] at h
  cases h8 : optionFlags env sf "Invalid env for user" id
      (fun s => ["-u", s]) self.user with
  | error e => simp only [h8, except_bind_error] at h; exact Except.noConfusion h
  | ok user_flags =>
  simp only [h8, except_bind_ok] at h
  cases h9 : (self.extra_flags.getD []).mapM
      (expectInterp env sf "Invalid env for extra flags") with
  | error e => simp only [h9, except_bind_error] at h; exact Except.noConfusion h
  | ok extra_flags =>
  simp only [h9, except_bind_ok] at h
  cases h10 : tryInterp env sf self.image with
  | error e => simp only [h10, except_bind_error] at h; exact Except.noConfusion h
  | ok image =>
  simp only [h10, except_bind_ok, except_pure] at h
  injection h with h
  subst h
  have hc := mapM_ok_facts (g := tok env sf) (q := interpFails env sf)
    (fun x y hxy => expectInterp_ok hxy) h1
  have hent := optionFlags_ok h2
  have henvs := mapM_ok_facts
    (g := fun p => ["-e", tok env sf (p.1 ++ "=" ++ p.2)])
    (q := fun p => interpFails env sf (p.1 ++ "=" ++ p.2))
    (fun x y hxy => by
      cases hd : expectInterp env sf "Invalid env for envs"
          (x.1 ++ "=" ++ x.2) with
      | error e => rw [hd, except_map_error] at hxy; exact Except.noConfusion hxy
      | ok s =>
          rw [hd, except_map_ok] at hxy
          injection hxy with hxy
          obtain ⟨hs, hq⟩ := expectInterp_ok hd
          subst hs
          exact ⟨hxy.symm, hq⟩) h3
  have hef := optionFlags_ok h4
  have hnet := optionFlags_ok h5
  have hports := mapM_ok_facts
    (g := fun port => ["-p", tok env sf port])
    (q := interpFails env sf)
    (fun x y hxy => by
      cases hd : expectInterp env sf "Invalid env for ports" x with
      | error e => rw [hd, except_map_error] at hxy; exact Except.noConfusion hxy
      | ok s =>
          rw [hd, except_map_ok] at hxy
          injection hxy with hxy
          obtain ⟨hs, hq⟩ := expectInterp_ok hd
          subst hs
          exact ⟨hxy.symm, hq⟩) h6
  have hvols := mapM_ok_facts
    (g := fun v => ["-v", tok env sf v])
    (q := interpFails env sf)
    (fun x y hxy => by
      cases hd : expectInterp env sf "Invalid env for volumes" x with
      | error e => rw [hd, except_map_error] at hxy; exact Except.noConfusion hxy
      | ok s =>
          rw [hd, except_map_ok] at hxy
          injection hxy with hxy
          obtain ⟨hs, hq⟩ := expectInterp_ok hd
          subst hs
          exact ⟨hxy.symm, hq⟩) h7
  have huser := optionFlags_ok h8
  have hextra := mapM_ok_facts (g := tok env sf) (q := interpFails env sf)
    (fun x y hxy => expectInterp_ok hxy) h9
  have him := tryInterp_ok h10
  constructor
  · rw [hc.1, hent.1, henvs.1, hef.1, hnet.1, hports.1, hvols.1, huser.1,
      hextra.1, him.1]
    unfold DockerRun.groups DockerRun.entrypointGroup DockerRun.envsGroup
      DockerRun.envFileGroup DockerRun.networkGroup DockerRun.portsGroup
      DockerRun.volumesGroup DockerRun.userGroup DockerRun.extraFlagsGroup
      DockerRun.imageGroup DockerRun.commandGroup
    simp [id]
  · unfold DockerRun.someFieldFails
    rw [hc.2, henvs.2, hports.2, hvols.2, hextra.2, him.2]
    have he1 := hent.2
    have he2 := hef.2
    have he3 := hnet.2
    have he4 := huser.2
    simp only [id] at he1 he2 he4
    rw [he1, he2, he3, he4]
    simp

/-- Counterexample to C1 as stated: the entrypoint's interpolation fails,
and `run` indeed never reaches the launcher, but it panics (the source's
`.expect("Invalid env for entrypoint")`) instead of returning an error to
the caller. -/
theorem claim_C1_counterexample :
    interpFails emptyEnv quietRunner (String.mk ['$', '{', 'X']) = true ∧
    badEntrypointSpec.run "docker" emptyEnv quietRunner stubLauncher [] =
      (.panicked "Invalid env for entrypoint", []) ∧
    RunOutcome.isErrorReturn
      (badEntrypointSpec.run "docker" emptyEnv quietRunner
        stubLauncher []).1 = false := by
  have hrun : badEntrypointSpec.run "docker" emptyEnv quietRunner
      stubLauncher [] = (.panicked "Invalid env for entrypoint", []) := by
    simp [DockerRun.run, DockerRun.buildArgs, badEntrypointSpec, imageOnly,
      optionFlags, expectInterp, tryInterp, shellInterpolateStr,
      shell_interpolate, fmt.shellInterpolate, fmt.scan, List.mapM,
      List.mapM.loop, Except.map, List.dropWhile, except_bind_ok,
      except_bind_error, except_pure]
  refine ⟨?_, hrun, ?_⟩
  · simp [interpFails, shellInterpolateStr, shell_interpolate,
      fmt.shellInterpolate, fmt.scan, List.dropWhile, Except.map]
  · rw [hrun]
    rfl

/-- C1 (amended): an interpolation failure in any of the fields of steps
2–11 aborts the run before the launcher is ever invoked — by a panic for
every field but the image, whose failure is returned as an error. -/
theorem claim_C1_abort_before_launch (self : DockerRun) (docker_cmd : String)
    (env : String → Option String) (sf : String → Except String String)
    (launcher : String → List String → Except String ChildOutput)
    (kv : List (String × String))
    (h : self.someFieldFails env sf = true) :
    (self.run docker_cmd env sf launcher kv).1.abortedBeforeLaunch = true ∧
    (self.run docker_cmd env sf launcher kv).2 = [] := by
  cases hb : self.buildArgs env sf with
  | error e =>
      cases e with
      | panicked m =>
          simp [DockerRun.run, hb, RunOutcome.abortedBeforeLaunch]
      | errored e2 =>
          simp [DockerRun.run, hb, RunOutcome.abortedBeforeLaunch]
  | ok args =>
      have hff := (buildArgs_ok_groups self env sf args hb).2
      rw [hff] at h
      exact absurd h (by simp)

/-- Witness for amended C1 at the failing-entrypoint spec. -/
theorem claim_C1_witness :
    badEntrypointSpec.someFieldFails emptyEnv quietRunner = true ∧
    (badEntrypointSpec.run "docker" emptyEnv quietRunner
      stubLauncher []).1.abortedBeforeLaunch = true ∧
    (badEntrypointSpec.run "docker" emptyEnv quietRunner
      stubLauncher []).2 = [] := by
  have hf : badEntrypointSpec.someFieldFails emptyEnv quietRunner = true := by
    simp [DockerRun.someFieldFails, badEntrypointSpec, imageOnly, interpFails,
      shellInterpolateStr, shell_interpolate, fmt.shellInterpolate, fmt.scan,
      List.dropWhile, Except.map]
  obtain ⟨h1, h2⟩ := claim_C1_abort_before_launch badEntrypointSpec "docker"
    emptyEnv quietRunner stubLauncher [] hf
  exact ⟨hf, h1, h2⟩

/-- C3: a successful assembly is exactly the fixed `run --rm` prefix
followed by the field groups in the documented order; with only
`image = "alpine"` the sequence is exactly `["run", "--rm", "alpine"]`. -/
theorem claim_C3_token_order :
    (∀ (self : DockerRun) (env : String → Option String)
        (sf : String → Except String String) (args : List String),
        self.buildArgs env sf = .ok args → args = self.groups env sf) ∧
    (∀ (env : String → Option String) (sf : String → Except String String),
        (imageOnly "alpine").buildArgs env sf =
          .ok ["run", "--rm", "alpine"]) := by
  constructor
  · intro self env sf args h
    exact (buildArgs_ok_groups self env sf args h).1
  · intro env sf
    have him : tryInterp env sf "alpine" = .ok "alpine" := by
      unfold tryInterp shellInterpolateStr shell_interpolate
        fmt.shellInterpolate
      rw [fmt.scan_plain _ _ _ (by decide)]
      rfl
    unfold DockerRun.buildArgs
    simp [imageOnly, optionFlags, him, List.mapM, List.mapM.loop,
      except_pure, except_bind_ok]

/-- Witness for C3 at the image-only spec. -/
theorem claim_C3_witness :
    (imageOnly "alpine").buildArgs emptyEnv quietRunner =
      .ok ["run", "--rm", "alpine"] ∧
    ["run", "--rm", "alpine"] =
      (imageOnly "alpine").groups emptyEnv quietRunner := by
  have h2 := claim_C3_token_order.2 emptyEnv quietRunner
  exact ⟨h2, claim_C3_token_order.1 (imageOnly "alpine") emptyEnv quietRunner
    ["run", "--rm", "alpine"] h2⟩

/-- C4: every `envs` entry `(k, v)` is first joined into the single
string `k=v` and only then expanded; the assembled sequence contains the
two adjacent tokens `-e` and the expanded joined string. -/
theorem claim_C4_env_pair_joined (self : DockerRun)
    (env : String → Option String) (sf : String → Except String String)
    (args : List String) (l : List (String × String)) (k v : String)
    (henvs : self.envs = some l) (hmem : (k, v) ∈ l)
    (h : self.buildArgs env sf = .ok args) :
    ["-e", tok env sf (k ++ "=" ++ v)] <:+: args := by
  have hg := (buildArgs_ok_groups self env sf args h).1
  subst hg
  have hmemmap : ["-e", tok env sf (k ++ "=" ++ v)] ∈
      (self.envs.getD []).map
        (fun p => ["-e", tok env sf (p.1 ++ "=" ++ p.2)]) := by
    rw [henvs]
    exact List.mem_map_of_mem _ hmem
  have hinfix1 : ["-e", tok env sf (k ++ "=" ++ v)] <:+:
      self.envsGroup env sf := by
    unfold DockerRun.envsGroup
    exact List.infix_of_mem_flatten hmemmap
  have hinfix2 : self.envsGroup env sf <:+: self.groups env sf := by
    refine ⟨["run", "--rm"] ++ self.entrypointGroup env sf,
      self.envFileGroup env sf ++ self.networkGroup env sf ++
        self.portsGroup env sf ++ self.volumesGroup env sf ++
        self.userGroup env sf ++ self.extraFlagsGroup env sf ++
        self.imageGroup env sf ++ self.commandGroup env sf, ?_⟩
    unfold DockerRun.groups
    simp [List.append_assoc]
  exact hinfix1.trans hinfix2

/-- Witness for C4 at `envs = [("K", "$HOME")]` with `HOME=/home/u`. -/
theorem claim_C4_witness :
    ({ imageOnly "alpine" with envs := some [("K", "$HOME")] } :
        DockerRun).buildArgs homeEnv quietRunner =
      .ok ["run", "--rm", "-e", "K=/home/u", "alpine"] ∧
    tok homeEnv quietRunner ("K" ++ "=" ++ "$HOME") = "K=/home/u" ∧
    ["-e", tok homeEnv quietRunner ("K" ++ "=" ++ "$HOME")] <:+:
      ["run", "--rm", "-e", "K=/home/u", "alpine"] := by
  have hargs : ({ imageOnly "alpine" with envs := some [("K", "$HOME")] } :
      DockerRun).buildArgs homeEnv quietRunner =
        .ok ["run", "--rm", "-e", "K=/home/u", "alpine"] := by
    simp [DockerRun.buildArgs, imageOnly, optionFlags, expectInterp,
      tryInterp, shellInterpolateStr, shell_interpolate,
      fmt.shellInterpolate, fmt.scan, List.mapM, List.mapM.loop, Except.map,
      List.dropWhile, List.takeWhile, nameStart, nameChar, homeEnv,
      except_bind_ok, except_bind_error, except_pure]
  have htok : tok homeEnv quietRunner ("K" ++ "=" ++ "$HOME") =
      "K=/home/u" := by
    simp [tok, shellInterpolateStr, shell_interpolate, fmt.shellInterpolate,
      fmt.scan, List.dropWhile, List.takeWhile, nameStart, nameChar,
      homeEnv, Except.map, Except.toOption]
  exact ⟨hargs, htok,
    claim_C4_env_pair_joined _ homeEnv quietRunner _ [("K", "$HOME")]
      "K" "$HOME" rfl (by simp) hargs⟩

end Doa
